import Mathlib

/-!
Verification of the yt-down download client core against its specification.

The definitions below are a shallow embedding of the frontend source
(`src/frontend/src/App.js`, `src/frontend/src/utils/formatters.js`, and the
service layer in `src/unnamed/part_000`).  Server behaviour is abstracted as
an environment: each HTTP request the client issues is answered by a value
drawn from an explicit environment record, so that the client logic itself
is translated literally.  JavaScript numbers are modelled as exact rationals
(for fractional percentages and sizes) or naturals (byte counters).
-/

namespace YtDown

/-- Job status strings used by the backend progress endpoint and matched
literally in `App.js` (`queued`, `downloading`, `completed`, `error`,
`cancelled`). -/
inductive Status where
  | queued
  | downloading
  | completed
  | error
  | cancelled
deriving DecidableEq

/-- One progress snapshot returned by `GET /api/progress/:fileId`, with the
fields `App.js` reads: `status`, `downloaded_bytes`, `total_bytes`,
`percentage`, `filename`, `ext`, `filesize`, `error`.  `filesize` and
`error` may be absent in the JSON, hence `Option`. -/
structure Progress where
  status : Status
  downloaded_bytes : Nat
  total_bytes : Nat
  percentage : ℚ
  filename : String
  ext : String
  filesize : Option Nat
  error : Option String
deriving DecidableEq

/-- JavaScript `a || b` for an optional string `a`: a missing value and the
empty string are falsy and fall through to the default. -/
def jsOr (s : Option String) (d : String) : String :=
  match s with
  | none => d
  | some v => if v = "" then d else v

/-- Floor of a rational, written on the normalised numerator and denominator
so that it evaluates inside the kernel; `ratFloor_eq_floor` below identifies
it with the mathematical floor. -/
def ratFloor (q : ℚ) : Int := q.num / q.den

/-- JavaScript `Math.round`: round half toward positive infinity
(`jsRound_eq_floor` below). -/
def jsRound (q : ℚ) : Int := ratFloor (q + 1 / 2)

/-- JavaScript `x.toFixed(2)` for the nonnegative magnitudes that reach it in
this code base: the integer closest to `100 * x` (ties upward) rendered with
exactly two digits after the decimal point. -/
def jsToFixed2 (q : ℚ) : String :=
  let n : Nat := (ratFloor (q * 100 + 1 / 2)).toNat
  toString (n / 100) ++ "." ++ (if n % 100 < 10 then "0" else "") ++ toString (n % 100)

/-- `formatFileSize` from `src/frontend/src/utils/formatters.js` (lines 8-12)
and duplicated in `App.js` (lines 406-410):
`if (!bytes) return 'Unknown size'; const mb = bytes / (1024 * 1024);
return mb.toFixed(2) + ' MB';`.  The argument is `none` for a missing
(`undefined`/`null`) byte count; `some 0` is the falsy number zero. -/
def formatFileSize (bytes : Option ℚ) : String :=
  match bytes with
  | none => "Unknown size"
  | some b => if b = 0 then "Unknown size" else jsToFixed2 (b / (1024 * 1024)) ++ " MB"

/-- The action the `App.js` poll handler (lines 154-217 of
`handleServerDownload`) takes on one progress snapshot: the if/else-if chain
on `progress.status`, in source order. -/
inductive ServerPollAction where
  | showProgress (percent : Int) (downloadedStr : String)
  | completeAction (filename : String)
  | cancelledAction
  | errorAction (msg : String)
  | keepPolling
deriving DecidableEq

/-- The branch dispatch of the `handleServerDownload` poll handler
(`App.js` lines 159-207): percentage and downloaded bytes are displayed only
when `status === 'downloading' && total_bytes > 0`; terminal statuses take
their own branches; anything else falls through and the loop keeps polling. -/
def serverPollHandler (p : Progress) : ServerPollAction :=
  if p.status = Status.downloading ∧ 0 < p.total_bytes then
    ServerPollAction.showProgress (jsRound p.percentage)
      (formatFileSize (some (p.downloaded_bytes : ℚ)))
  else if p.status = Status.completed then
    ServerPollAction.completeAction p.filename
  else if p.status = Status.cancelled then
    ServerPollAction.cancelledAction
  else if p.status = Status.error then
    ServerPollAction.errorAction (jsOr p.error "Download failed")
  else
    ServerPollAction.keepPolling

/-- The environment answer to one progress poll: either a snapshot, or the
request throws (`fail`), carrying the optional `err.response.data.detail`. -/
inductive PollResp where
  | ok : Progress → PollResp
  | fail : Option String → PollResp

/-- Whether one poll answer makes the reference client stop polling: the
`completed`/`cancelled`/`error` branches of `handleServerDownload`
(`App.js` lines 163-207) each run `clearInterval`, and so does the
`catch` block (lines 208-216) when the request throws. -/
def stopsPolling (r : PollResp) : Bool :=
  match r with
  | PollResp.fail _ => true
  | PollResp.ok p =>
      decide (p.status = Status.completed ∨ p.status = Status.cancelled ∨
        p.status = Status.error)

/-- The instants (milliseconds after the download request) at which the
`setInterval(..., 500)` loop of `handleServerDownload` issues progress
requests, given what each request would observe: one request per tick until
the first answer that stops the loop.  `t` is the instant of the next tick. -/
def pollTimesFrom : List PollResp → Nat → List Nat
  | [], _ => []
  | r :: rs, t => t :: (if stopsPolling r then [] else pollTimesFrom rs (t + 500))

/-- Poll instants of `handleServerDownload`: `setInterval(..., 500)` fires
first at 500 ms. -/
def serverPollTimes (rs : List PollResp) : List Nat :=
  pollTimesFrom rs 500

/-- One entry of the `results` array built by `handleBatchDownload`
(`App.js` lines 352-360 for successes, 371-375 for failures).  A success is
pushed as `{success: true, url, file_id, filename, title, ext, filesize}`;
a failure is pushed as `{success: false, url, error}` — fields that a branch
does not write are `none`. -/
structure BatchOutcome where
  success : Bool
  url : String
  file_id : Option String
  filename : Option String
  title : Option String
  ext : Option String
  filesize : Option Nat
  error : Option String
deriving DecidableEq

/-- Observable interaction events of the batch loop, used to state ordering
properties: `created i fid` is the `POST /api/download` for item `i`
returning job id `fid` (`App.js` lines 318-324); `observedTerminal i fid st`
is the first poll of item `i` whose snapshot had the terminal status `st`
(lines 340-347). -/
inductive Ev where
  | created : Nat → String → Ev
  | observedTerminal : Nat → String → Status → Ev
deriving DecidableEq

/-- The batch item an event belongs to. -/
def evIdx : Ev → Nat
  | Ev.created i _ => i
  | Ev.observedTerminal i _ _ => i

/-- The environment for one batch item: what `POST /api/download` answers
(`Except.error d` models the request throwing with optional
`err.response.data.detail`; `Except.ok fid` is `response.data.file_id`),
and the successive answers to the progress polls of the wait loop. -/
structure ItemEnv where
  post : Except (Option String) String
  polls : List PollResp

/-- The `while (!completed)` wait loop of `handleBatchDownload`
(`App.js` lines 330-348) together with the `results.push` that follows it
(lines 352-360) and the per-item `catch` (lines 370-377).

Each iteration reads one poll answer.  A throwing poll is caught by the
per-item `catch`, which pushes `{success: false, url, error:
err.response?.data?.detail || 'Download failed'}`.  A `downloading` snapshot
with positive `total_bytes` only updates the status line and the loop
continues; a `completed` snapshot ends the loop and the success record is
pushed, adding `progress.filesize || 0` to the running `downloadedSize`;
an `error` or `cancelled` snapshot throws `new Error(...)` — an object with
no `response` field, so the `catch` records the literal `'Download failed'`.
Any other snapshot (for instance `queued`, or `downloading` with
`total_bytes = 0`) just loops.  An exhausted poll list means the JavaScript
loop never exits, modelled as `none`.

Returns the pushed outcome, the amount added to `downloadedSize`, and the
terminal-observation events. -/
def runPolls (url : String) (idx : Nat) (fid : String) :
    List PollResp → Option (BatchOutcome × Nat × List Ev)
  | [] => none
  | PollResp.fail d :: _ =>
      some (⟨false, url, none, none, none, none, none, some (jsOr d "Download failed")⟩,
        0, [])
  | PollResp.ok p :: rest =>
      if p.status = Status.downloading ∧ 0 < p.total_bytes then
        runPolls url idx fid rest
      else if p.status = Status.completed then
        some (⟨true, url, some fid, some p.filename, some p.filename, some p.ext,
          p.filesize, none⟩, p.filesize.getD 0,
          [Ev.observedTerminal idx fid Status.completed])
      else if p.status = Status.error ∨ p.status = Status.cancelled then
        some (⟨false, url, none, none, none, none, none, some "Download failed"⟩,
          0, [Ev.observedTerminal idx fid p.status])
      else
        runPolls url idx fid rest

/-- One iteration body of the `for` loop of `handleBatchDownload`
(`App.js` lines 316-377): the `POST /api/download`, then the wait loop.  If
the POST itself throws, the per-item `catch` records the failure and no job
ever exists for this item. -/
def runItem (url : String) (idx : Nat) (env : ItemEnv) :
    Option (BatchOutcome × Nat × List Ev) :=
  match env.post with
  | Except.error d =>
      some (⟨false, url, none, none, none, none, none, some (jsOr d "Download failed")⟩,
        0, [])
  | Except.ok fid =>
      match runPolls url idx fid env.polls with
      | none => none
      | some (o, sz, evs) => some (o, sz, Ev.created idx fid :: evs)

/-- The `for (let i = 0; ...)` loop of `handleBatchDownload` (`App.js`
lines 301-378).  `capturedCancel` is the value of the `cancelBatchDownload`
state variable captured by this invocation of the handler: it is a `const`
of the render that created the closure, so it cannot change while the loop
runs; the loop checks it at the top of every iteration (line 303) and
breaks when it is true.  Accumulates the `results` array, the
`downloadedSize` counter and the interaction events, threading the item
index `idx`. -/
def runBatchAux (capturedCancel : Bool) :
    List (String × ItemEnv) → Nat → Option (List BatchOutcome × Nat × List Ev)
  | [], _ => some ([], 0, [])
  | (url, env) :: rest, idx =>
      if capturedCancel then some ([], 0, [])
      else
        match runItem url idx env with
        | none => none
        | some (o, sz, evs) =>
            match runBatchAux capturedCancel rest (idx + 1) with
            | none => none
            | some (os, rsz, revs) => some (o :: os, sz + rsz, evs ++ revs)

/-- The observable outcome of one `handleBatchDownload` invocation: the
final `results` array, the final `downloadedSize`, the id list sent to
`POST /api/create-zip` (`none` when the request is not made), and the
interaction events in order. -/
structure BatchRun where
  results : List BatchOutcome
  downloadedSize : Nat
  zipCall : Option (List String)
  trace : List Ev
deriving DecidableEq

/-- `handleBatchDownload` (`App.js` lines 277-404): run the sequential item
loop, then (lines 380-392) filter `results` for `r.success` and, only when
`successfulDownloads.length > 0`, call `POST /api/create-zip` with
`file_ids: successfulDownloads.map(r => r.file_id)`. -/
def handleBatchDownload (capturedCancel : Bool) (items : List (String × ItemEnv)) :
    Option BatchRun :=
  match runBatchAux capturedCancel items 0 with
  | none => none
  | some (results, size, evs) =>
      let succ := results.filter (fun r => r.success)
      some ⟨results, size,
        if 0 < succ.length then some (succ.filterMap (fun r => r.file_id)) else none,
        evs⟩

/-- The two faces of the `cancelBatchDownload` React state: the current
state value (what the next render will see) and the value captured by the
in-flight `handleBatchDownload` closure.  In `App.js` the state variable is
a `const` destructured from `useState` in the render that created the
running handler; `setCancelBatchDownload` produces a new value for future
renders but cannot rebind that `const`. -/
structure ReactBatchState where
  cancelBatchDownload : Bool
  captured : Bool
deriving DecidableEq

/-- `handleCancelBatchDownload` (`App.js` lines 252-255):
`setCancelBatchDownload(true)` updates the React state.  The value already
captured by the running batch loop is unchanged — this is exactly the stale
closure that makes the cancel button ineffective. -/
def handleCancelBatchDownload (s : ReactBatchState) : ReactBatchState :=
  ⟨true, s.captured⟩

/-- The job registry view induced by a batch trace: each job id paired with
the terminal status its wait loop observed.  Per the spec a job is immutable
once terminal, so this is the backend registry status of those jobs. -/
def registryOf (tr : List Ev) : List (String × Status) :=
  tr.filterMap (fun e =>
    match e with
    | Ev.observedTerminal _ fid st => some (fid, st)
    | Ev.created _ _ => none)

/-- Modelled from the spec: the backend Archive Builder behind
`POST /api/create-zip` is not under `src/` — only its frontend caller
`createZip` (part_000 lines 102-107) is.  Spec 4.6: input must be a
non-empty set of ids all present in the Job Registry with status
`completed`; any id violating this fails with `InvalidStateError` naming
the offending id. -/
def buildArchive (registry : List (String × Status)) (ids : List String) :
    Except String (List String) :=
  if ids.isEmpty then Except.error "InvalidStateError: empty id set"
  else
    match ids.find? (fun i => decide (¬ registry.lookup i = some Status.completed)) with
    | some bad => Except.error ("InvalidStateError: " ++ bad)
    | none => Except.ok ids

/-- Sum of `filesize || 0` over the successful outcome records. -/
def successSizes (res : List BatchOutcome) : Nat :=
  ((res.filter fun r => r.success).map fun r => r.filesize.getD 0).sum

/-- The results array of a possibly diverging run (empty when diverging). -/
def resultsOf (r : Option BatchRun) : List BatchOutcome :=
  (r.map BatchRun.results).getD []

/-- The trace of a possibly diverging run (empty when diverging). -/
def traceOf (r : Option BatchRun) : List Ev :=
  (r.map BatchRun.trace).getD []

/-- The item indices that reached a terminal observation in a trace. -/
def terminalObsIdxs (tr : List Ev) : List Nat :=
  tr.filterMap (fun e =>
    match e with
    | Ev.observedTerminal j _ _ => some j
    | Ev.created _ _ => none)

/-! Concrete sample environments used to instantiate the theorems below. -/

/-- A mid-download snapshot: 100 of 1000 bytes, 10 percent. -/
def pDown : Progress := ⟨Status.downloading, 100, 1000, 10, "", "", none, none⟩

/-- A completed snapshot with a 1000-byte file. -/
def pDone1 : Progress := ⟨Status.completed, 1000, 1000, 100, "a.mp4", "mp4", some 1000, none⟩

/-- A completed snapshot with a 2000-byte file. -/
def pDone2 : Progress := ⟨Status.completed, 0, 0, 0, "b.mp4", "mp4", some 2000, none⟩

/-- A terminal `error` snapshot. -/
def pErrSnap : Progress := ⟨Status.error, 0, 0, 0, "", "", none, some "boom"⟩

/-- A terminal `cancelled` snapshot. -/
def pCanSnap : Progress := ⟨Status.cancelled, 0, 0, 0, "", "", none, none⟩

/-- Item whose download progresses once and then completes (job id `ja`). -/
def envA : ItemEnv := ⟨Except.ok "ja", [PollResp.ok pDown, PollResp.ok pDone1]⟩

/-- Item whose job terminates in `error` (job id `jb`). -/
def envB : ItemEnv := ⟨Except.ok "jb", [PollResp.ok pErrSnap]⟩

/-- Item that completes immediately (job id `jc`). -/
def envC : ItemEnv := ⟨Except.ok "jc", [PollResp.ok pDone2]⟩

/-- Item whose job terminates in `cancelled` (job id `jd`). -/
def envCan : ItemEnv := ⟨Except.ok "jd", [PollResp.ok pCanSnap]⟩

/-- Item whose job is created (id `ja`) but whose first progress poll
throws, so its wait loop aborts without ever observing a terminal state. -/
def envPollThrows : ItemEnv := ⟨Except.ok "ja", [PollResp.fail none]⟩

/-- A three-item batch whose middle item fails terminally. -/
def demoItems : List (String × ItemEnv) := [("u1", envA), ("u2", envB), ("u3", envC)]

/-- The run that `handleBatchDownload false demoItems` evaluates to. -/
def demoRun : BatchRun :=
  ⟨[⟨true, "u1", some "ja", some "a.mp4", some "a.mp4", some "mp4", some 1000, none⟩,
    ⟨false, "u2", none, none, none, none, none, some "Download failed"⟩,
    ⟨true, "u3", some "jc", some "b.mp4", some "b.mp4", some "mp4", some 2000, none⟩],
   3000, some ["ja", "jc"],
   [Ev.created 0 "ja", Ev.observedTerminal 0 "ja" Status.completed,
    Ev.created 1 "jb", Ev.observedTerminal 1 "jb" Status.error,
    Ev.created 2 "jc", Ev.observedTerminal 2 "jc" Status.completed]⟩

/-! Helper lemmas about the embedding. -/

theorem ratFloor_eq_floor (q : ℚ) : ratFloor q = ⌊q⌋ := Rat.floor_def.symm

theorem jsRound_eq_floor (q : ℚ) : jsRound q = ⌊q + 1 / 2⌋ :=
  ratFloor_eq_floor _

/-- Characterisation of one wait loop: it ends either in the success record
of a `completed` snapshot, or in a caught-exception failure record (with no
terminal observation), or in the uniform `'Download failed'` record of an
`error`/`cancelled` snapshot. -/
theorem runPolls_spec (polls : List PollResp) : ∀ (url : String) (idx : Nat) (fid : String)
    (o : BatchOutcome) (sz : Nat) (evs : List Ev),
    runPolls url idx fid polls = some (o, sz, evs) →
    (∃ fn ex fs, o = ⟨true, url, some fid, some fn, some fn, some ex, fs, none⟩ ∧
        sz = fs.getD 0 ∧ evs = [Ev.observedTerminal idx fid Status.completed]) ∨
    (∃ msg, o = ⟨false, url, none, none, none, none, none, some msg⟩ ∧ sz = 0 ∧ evs = []) ∨
    (o = ⟨false, url, none, none, none, none, none, some "Download failed"⟩ ∧ sz = 0 ∧
        ∃ st, (st = Status.error ∨ st = Status.cancelled) ∧
          evs = [Ev.observedTerminal idx fid st]) := by
  induction polls with
  | nil =>
    intro url idx fid o sz evs h
    simp [runPolls] at h
  | cons p rest ih =>
    intro url idx fid o sz evs h
    cases p with
    | fail d =>
      simp only [runPolls, Option.some.injEq, Prod.mk.injEq] at h
      obtain ⟨ho, hsz, hevs⟩ := h
      exact Or.inr (Or.inl ⟨jsOr d "Download failed", ho.symm, hsz.symm, hevs.symm⟩)
    | ok pr =>
      simp only [runPolls] at h
      split_ifs at h with h1 h2 h3
      · exact ih url idx fid o sz evs h
      · simp only [Option.some.injEq, Prod.mk.injEq] at h
        obtain ⟨ho, hsz, hevs⟩ := h
        exact Or.inl ⟨pr.filename, pr.ext, pr.filesize, ho.symm, hsz.symm, hevs.symm⟩
      · simp only [Option.some.injEq, Prod.mk.injEq] at h
        obtain ⟨ho, hsz, hevs⟩ := h
        exact Or.inr (Or.inr ⟨ho.symm, hsz.symm, pr.status, h3, hevs.symm⟩)
      · exact ih url idx fid o sz evs h

/-- Characterisation of one full item: the POST either throws (failure
record, no events) or yields a job id, after which `runPolls_spec` applies
with the creation event prepended. -/
theorem runItem_spec (url : String) (idx : Nat) (env : ItemEnv)
    (o : BatchOutcome) (sz : Nat) (evs : List Ev)
    (h : runItem url idx env = some (o, sz, evs)) :
    (∃ fid fn ex fs, o = ⟨true, url, some fid, some fn, some fn, some ex, fs, none⟩ ∧
        sz = fs.getD 0 ∧
        evs = [Ev.created idx fid, Ev.observedTerminal idx fid Status.completed]) ∨
    (∃ msg, o = ⟨false, url, none, none, none, none, none, some msg⟩ ∧ sz = 0 ∧
        (evs = [] ∨ ∃ fid, evs = [Ev.created idx fid])) ∨
    (∃ fid, o = ⟨false, url, none, none, none, none, none, some "Download failed"⟩ ∧ sz = 0 ∧
        ∃ st, (st = Status.error ∨ st = Status.cancelled) ∧
          evs = [Ev.created idx fid, Ev.observedTerminal idx fid st]) := by
  unfold runItem at h
  split at h
  case _ d hp =>
    simp only [Option.some.injEq, Prod.mk.injEq] at h
    obtain ⟨ho, hsz, hevs⟩ := h
    exact Or.inr (Or.inl ⟨jsOr d "Download failed", ho.symm, hsz.symm, Or.inl hevs.symm⟩)
  case _ fid hp =>
    split at h
    case _ hrp => simp at h
    case _ o' sz' evs' hrp =>
      simp only [Option.some.injEq, Prod.mk.injEq] at h
      obtain ⟨ho, hsz, hevs⟩ := h
      subst ho; subst hsz
      rcases runPolls_spec env.polls url idx fid _ _ _ hrp with
        ⟨fn, ex, fs, ho, hsz, hevs'⟩ | ⟨msg, ho, hsz, hevs'⟩ | ⟨ho, hsz, st, hst, hevs'⟩
      · subst hevs'; subst hevs
        exact Or.inl ⟨fid, fn, ex, fs, ho, hsz, rfl⟩
      · subst hevs'; subst hevs
        exact Or.inr (Or.inl ⟨msg, ho, hsz, Or.inr ⟨fid, rfl⟩⟩)
      · subst hevs'; subst hevs
        exact Or.inr (Or.inr ⟨fid, ho, hsz, st, hst, rfl⟩)

/-- The facts about one item that the batch induction consumes. -/
theorem runItem_facts (url : String) (idx : Nat) (env : ItemEnv)
    (o : BatchOutcome) (sz : Nat) (evs : List Ev)
    (h : runItem url idx env = some (o, sz, evs)) :
    o.url = url ∧
    sz = (if o.success then o.filesize.getD 0 else 0) ∧
    (∀ e ∈ evs, evIdx e = idx) ∧
    (o.success = true → ∃ fid, o.file_id = some fid ∧
       Ev.observedTerminal idx fid Status.completed ∈ evs) ∧
    (o.success = false → o.file_id = none ∧ o.error.isSome = true) := by
  rcases runItem_spec url idx env o sz evs h with
    ⟨fid, fn, ex, fs, ho, hsz, hevs⟩ | ⟨msg, ho, hsz, hevs⟩ | ⟨fid, ho, hsz, st, hst, hevs⟩
  · subst ho; subst hsz; subst hevs
    refine ⟨rfl, rfl, ?_, ?_, ?_⟩
    · rintro e he
      rcases List.mem_cons.mp he with rfl | he
      · rfl
      · rcases List.mem_singleton.mp he with rfl
        rfl
    · intro _
      exact ⟨fid, rfl, by simp⟩
    · intro hfalse
      simp at hfalse
  · subst ho; subst hsz
    refine ⟨rfl, rfl, ?_, ?_, ?_⟩
    · rintro e he
      rcases hevs with rfl | ⟨fid, rfl⟩
      · simp at he
      · rcases List.mem_singleton.mp he with rfl
        rfl
    · intro htrue
      simp at htrue
    · intro _
      exact ⟨rfl, rfl⟩
  · subst ho; subst hsz; subst hevs
    refine ⟨rfl, rfl, ?_, ?_, ?_⟩
    · rintro e he
      rcases List.mem_cons.mp he with rfl | he
      · rfl
      · rcases List.mem_singleton.mp he with rfl
        rfl
    · intro htrue
      simp at htrue
    · intro _
      exact ⟨rfl, rfl⟩

theorem successSizes_cons (r : BatchOutcome) (l : List BatchOutcome) :
    successSizes (r :: l) = (if r.success then r.filesize.getD 0 else 0) + successSizes l := by
  cases hr : r.success <;> simp [successSizes, List.filter_cons, hr]

theorem pairwise_le_of_const {l : List Ev} {k : Nat} (h : ∀ e ∈ l, evIdx e = k) :
    l.Pairwise (fun a b => evIdx a ≤ evIdx b) := by
  induction l with
  | nil => exact List.Pairwise.nil
  | cons a t ih =>
    refine List.Pairwise.cons ?_ (ih ?_)
    · intro b hb
      have h1 := h a (List.mem_cons_self a t)
      have h2 := h b (List.mem_cons_of_mem a hb)
      omega
    · intro e he
      exact h e (List.mem_cons_of_mem a he)

/-- Global invariants of the sequential loop, starting at item `k`: the
outcomes line up one-to-one and in order with the input items; the size
counter is the sum over successes; the trace is grouped by item in
increasing item order; successes point (via their recorded job id) at a
`completed` observation, failures have no job id but an error detail. -/
theorem runBatchAux_spec (items : List (String × ItemEnv)) : ∀ (k : Nat)
    (res : List BatchOutcome) (sz : Nat) (tr : List Ev),
    runBatchAux false items k = some (res, sz, tr) →
    res.map (fun r => r.url) = items.map Prod.fst ∧
    sz = successSizes res ∧
    (∀ e ∈ tr, k ≤ evIdx e) ∧
    tr.Pairwise (fun a b => evIdx a ≤ evIdx b) ∧
    (∀ r ∈ res, r.success = true →
       ∃ i fid, r.file_id = some fid ∧ Ev.observedTerminal i fid Status.completed ∈ tr) ∧
    (∀ r ∈ res, r.success = false → r.file_id = none ∧ r.error.isSome = true) := by
  induction items with
  | nil =>
    intro k res sz tr h
    simp only [runBatchAux, Option.some.injEq, Prod.mk.injEq] at h
    obtain ⟨h1, h2, h3⟩ := h
    subst h1; subst h2; subst h3
    refine ⟨rfl, rfl, ?_, List.Pairwise.nil, ?_, ?_⟩
    · intro e he; simp at he
    · intro r hr; simp at hr
    · intro r hr; simp at hr
  | cons it rest ih =>
    intro k res sz tr h
    obtain ⟨url, env⟩ := it
    simp only [runBatchAux, Bool.false_eq_true, if_false] at h
    split at h
    case _ hri => simp at h
    case _ o sz1 evs hri =>
      split at h
      case _ hrb => simp at h
      case _ os rsz revs hrb =>
        simp only [Option.some.injEq, Prod.mk.injEq] at h
        obtain ⟨hres, hsz, htr⟩ := h
        subst hres; subst hsz; subst htr
        obtain ⟨hurl, hsz1, hevI, hsucc, hfail⟩ := runItem_facts url k env o sz1 evs hri
        obtain ⟨ihmap, ihsz, ihlb, ihpw, ihsucc, ihfail⟩ := ih (k + 1) os rsz revs hrb
        refine ⟨?_, ?_, ?_, ?_, ?_, ?_⟩
        · simp only [List.map_cons, hurl, ihmap]
        · rw [successSizes_cons, ← hsz1, ihsz]
        · intro e he
          rcases List.mem_append.mp he with he | he
          · exact le_of_eq (hevI e he).symm
          · exact le_trans (Nat.le_succ k) (ihlb e he)
        · rw [List.pairwise_append]
          refine ⟨pairwise_le_of_const hevI, ihpw, ?_⟩
          intro a ha b hb
          have h1 := hevI a ha
          have h2 := ihlb b hb
          omega
        · intro r hr hrs
          rcases List.mem_cons.mp hr with rfl | hr
          · obtain ⟨fid, hfid, hmem⟩ := hsucc hrs
            exact ⟨k, fid, hfid, List.mem_append_left _ hmem⟩
          · obtain ⟨i, fid, hfid, hmem⟩ := ihsucc r hr hrs
            exact ⟨i, fid, hfid, List.mem_append_right _ hmem⟩
        · intro r hr hrs
          rcases List.mem_cons.mp hr with rfl | hr
          · exact hfail hrs
          · exact ihfail r hr hrs

/-- Unpacking one `handleBatchDownload` run into its loop phase and its
zip phase. -/
theorem handleBatch_elim (items : List (String × ItemEnv)) (run : BatchRun)
    (h : handleBatchDownload false items = some run) :
    runBatchAux false items 0 = some (run.results, run.downloadedSize, run.trace) ∧
    run.zipCall = (if 0 < (run.results.filter fun r => r.success).length then
       some ((run.results.filter fun r => r.success).filterMap fun r => r.file_id)
     else none) := by
  unfold handleBatchDownload at h
  split at h
  case _ => simp at h
  case _ res size evs heq =>
    simp only [Option.some.injEq] at h
    subst h
    exact ⟨heq, rfl⟩

theorem lookup_eq_of_mem_nodup : ∀ (l : List (String × Status)),
    (l.map Prod.fst).Nodup → ∀ (a : String) (b : Status), (a, b) ∈ l →
    l.lookup a = some b := by
  intro l
  induction l with
  | nil =>
    intro _ a b hm
    simp at hm
  | cons p t ih =>
    intro hnd a b hm
    obtain ⟨a', b'⟩ := p
    have hnd' : (∀ x : Status, (a', x) ∉ t) ∧ (t.map Prod.fst).Nodup := by simpa using hnd
    rcases List.mem_cons.mp hm with heq | hm
    · have heq' : a = a' ∧ b = b' := by
        rw [Prod.mk.injEq] at heq
        exact heq
      obtain ⟨ha, hb⟩ := heq'
      subst ha; subst hb
      simp [List.lookup]
    · have hne : (a == a') = false := by
        refine beq_eq_false_iff_ne.mpr ?_
        intro he
        exact hnd'.1 b (he ▸ hm)
      simp only [List.lookup, hne]
      exact ih hnd'.2 a b hm

theorem mem_registryOf {tr : List Ev} {i : Nat} {fid : String} {st : Status}
    (h : Ev.observedTerminal i fid st ∈ tr) : (fid, st) ∈ registryOf tr :=
  List.mem_filterMap.mpr ⟨_, h, rfl⟩

/-! The claims. -/

/-- Claim C1: for every ordered list of batch sources, a terminal failure of
a single item never aborts the batch — over every environment (including
ones where items fail terminally), each input item yields exactly one
outcome record, in input order, and a failed item is recorded with an error
detail while processing continues.  `false` is the value of the captured
cancel flag during a normal run. -/
theorem batch_survives_item_failure_c1 (items : List (String × ItemEnv)) (run : BatchRun)
    (h : handleBatchDownload false items = some run) :
    run.results.length = items.length ∧
    run.results.map (fun r => r.url) = items.map Prod.fst ∧
    (∀ r ∈ run.results, r.success = false → r.error.isSome = true) := by
  obtain ⟨haux, -⟩ := handleBatch_elim items run h
  obtain ⟨hmap, -, -, -, -, hfail⟩ := runBatchAux_spec items 0 _ _ _ haux
  refine ⟨?_, hmap, fun r hr hs => (hfail r hr hs).2⟩
  have hlen := congrArg List.length hmap
  simpa using hlen

/-- Witness for C1 on a three-item batch whose middle item fails. -/
theorem batch_survives_item_failure_c1_witness :
    demoRun.results.length = demoItems.length ∧
    demoRun.results.map (fun r => r.url) = demoItems.map Prod.fst ∧
    (∀ r ∈ demoRun.results, r.success = false → r.error.isSome = true) :=
  batch_survives_item_failure_c1 demoItems demoRun rfl

/-- Claim C2: for every completed batch, the final aggregate downloaded size
equals the sum of the recorded file sizes over exactly the outcome records
with `success = true`; items ending in `error` or `cancelled` contribute
nothing (they are excluded by the `success` filter). -/
theorem aggregate_size_c2 (items : List (String × ItemEnv)) (run : BatchRun)
    (h : handleBatchDownload false items = some run) :
    run.downloadedSize = successSizes run.results := by
  obtain ⟨haux, -⟩ := handleBatch_elim items run h
  obtain ⟨-, hsz, -, -, -, -⟩ := runBatchAux_spec items 0 _ _ _ haux
  exact hsz

/-- Witness for C2: 1000 + 2000 from the two successes, nothing from the
failed middle item. -/
theorem aggregate_size_c2_witness :
    demoRun.downloadedSize = successSizes demoRun.results ∧ demoRun.downloadedSize = 3000 :=
  ⟨aggregate_size_c2 demoItems demoRun rfl, rfl⟩

/-- Counterexample to C3 as stated: item 0 gets a job (`ja`), its first
progress poll throws, the per-item catch records the failure, and the loop
immediately creates the job for item 1 (`jc`) — yet no terminal observation
for item 0 ever occurs (`terminalObsIdxs` of the trace is `[1]`).  So the
job for item 1 is created without the job for item 0 having been observed
in a terminal state by the wait loop. -/
theorem sequential_creation_c3_counterexample :
    traceOf (handleBatchDownload false [("u1", envPollThrows), ("u3", envC)]) =
      [Ev.created 0 "ja", Ev.created 1 "jc",
       Ev.observedTerminal 1 "jc" Status.completed] ∧
    terminalObsIdxs
        (traceOf (handleBatchDownload false [("u1", envPollThrows), ("u3", envC)])) = [1] ∧
    (resultsOf (handleBatchDownload false [("u1", envPollThrows), ("u3", envC)])).map
        BatchOutcome.success = [false, true] :=
  ⟨rfl, rfl, rfl⟩

/-- Claim C3 as amended: the orchestrator is sequential in the sense that
whenever the trace of a run contains both the creation of the job for item
`i + 1` and a terminal observation of item `i`, the creation occurs
strictly after the observation — item `i + 1` is never started while the
wait loop of item `i` is still polling.  (When a progress poll for item `i`
throws, the wait loop aborts without a terminal observation and item
`i + 1` is started anyway; see the counterexample.) -/
theorem sequential_creation_c3 (items : List (String × ItemEnv)) (run : BatchRun)
    (h : handleBatchDownload false items = some run)
    (i : Nat) (fid fid' : String) (st : Status) (p q : Nat)
    (hp : p < run.trace.length) (hq : q < run.trace.length)
    (hcp : run.trace.get ⟨p, hp⟩ = Ev.created (i + 1) fid)
    (hcq : run.trace.get ⟨q, hq⟩ = Ev.observedTerminal i fid' st) :
    q < p := by
  obtain ⟨haux, -⟩ := handleBatch_elim items run h
  obtain ⟨-, -, -, hpw, -, -⟩ := runBatchAux_spec items 0 _ _ _ haux
  by_contra hqp
  push_neg at hqp
  rcases Nat.lt_or_ge p q with hlt | hge
  · have hle := List.pairwise_iff_get.mp hpw ⟨p, hp⟩ ⟨q, hq⟩ hlt
    rw [hcp, hcq] at hle
    simp [evIdx] at hle
  · have hpq : p = q := Nat.le_antisymm hqp hge
    subst hpq
    rw [hcp] at hcq
    exact Ev.noConfusion hcq

/-- Witness for C3: in the demo trace, the creation of job `jb` (item 1, at
position 2) comes after the terminal observation of item 0 (position 1). -/
theorem sequential_creation_c3_witness : 1 < 2 :=
  sequential_creation_c3 demoItems demoRun rfl 0 "jb" "ja" Status.completed 2 1
    (by decide) (by decide) rfl rfl

/-- Claim C4 (code bug): raising the cancel signal has no effect on the
in-flight batch.  `handleCancelBatchDownload` updates the React state but
cannot change the value captured by the running closure, so a two-item
batch still processes both items; only a run whose closure had captured
`true` from the start would stop — which never happens, since the handler
sets the flag to `false` when the batch starts. -/
theorem cancel_signal_stale_c4 :
    (handleCancelBatchDownload ⟨false, false⟩).captured = false ∧
    (resultsOf (handleBatchDownload (handleCancelBatchDownload ⟨false, false⟩).captured
       [("u1", envA), ("u3", envC)])).length = 2 ∧
    resultsOf (handleBatchDownload true [("u1", envA), ("u3", envC)]) = [] :=
  ⟨rfl, rfl, rfl⟩

/-- Claim C5: the zip request is issued exactly when some item succeeded,
its id list is exactly the job ids of the successful outcomes, and on that
id list the Archive Builder (modelled from the spec, over the registry of
terminal statuses this run produced) cannot take its `InvalidStateError`
branch.  `hnd` states that the backend allocated distinct job ids, per the
spec (the id is an "opaque unique token"). -/
theorem zip_invocation_c5 (items : List (String × ItemEnv)) (run : BatchRun)
    (h : handleBatchDownload false items = some run)
    (hnd : ((registryOf run.trace).map Prod.fst).Nodup) :
    (run.zipCall ≠ none ↔ ∃ r ∈ run.results, r.success = true) ∧
    (∀ ids, run.zipCall = some ids →
       ids = (run.results.filter fun r => r.success).filterMap (fun r => r.file_id) ∧
       buildArchive (registryOf run.trace) ids = Except.ok ids) := by
  obtain ⟨haux, hzip⟩ := handleBatch_elim items run h
  obtain ⟨-, -, -, -, hsucc, -⟩ := runBatchAux_spec items 0 _ _ _ haux
  have hlookAll : ∀ r ∈ run.results, r.success = true → ∀ x, r.file_id = some x →
      (registryOf run.trace).lookup x = some Status.completed := by
    intro r hr hrs x hx
    obtain ⟨i, fid, hfid, hmem⟩ := hsucc r hr hrs
    have hxf : x = fid := by
      rw [hx] at hfid
      exact Option.some.inj hfid
    subst hxf
    exact lookup_eq_of_mem_nodup _ hnd x Status.completed (mem_registryOf hmem)
  constructor
  · rw [hzip]
    by_cases hpos : 0 < (run.results.filter fun r => r.success).length
    · rw [if_pos hpos]
      simp only [ne_eq, reduceCtorEq, not_false_eq_true, true_iff]
      obtain ⟨r, hr⟩ := List.exists_mem_of_length_pos hpos
      obtain ⟨hrres, hrs⟩ := List.mem_filter.mp hr
      exact ⟨r, hrres, hrs⟩
    · rw [if_neg hpos]
      simp only [ne_eq, not_true_eq_false, false_iff]
      rintro ⟨r, hrres, hrs⟩
      exact hpos (List.length_pos_of_mem (List.mem_filter.mpr ⟨hrres, hrs⟩))
  · intro ids hids
    rw [hzip] at hids
    by_cases hpos : 0 < (run.results.filter fun r => r.success).length
    · rw [if_pos hpos] at hids
      have hids' := Option.some.inj hids
      subst hids'
      refine ⟨rfl, ?_⟩
      obtain ⟨r0, hr0⟩ := List.exists_mem_of_length_pos hpos
      obtain ⟨hr0res, hr0s⟩ := List.mem_filter.mp hr0
      obtain ⟨i0, fid0, hfid0, hmem0⟩ := hsucc r0 hr0res hr0s
      have hne : (run.results.filter fun r => r.success).filterMap (fun r => r.file_id) ≠ [] :=
        List.ne_nil_of_mem (List.mem_filterMap.mpr ⟨r0, hr0, hfid0⟩)
      have hfind : ((run.results.filter fun r => r.success).filterMap
          (fun r => r.file_id)).find?
            (fun i => decide (¬ (registryOf run.trace).lookup i = some Status.completed)) =
          none := by
        apply List.find?_eq_none.mpr
        intro x hx
        obtain ⟨r, hr, hfid⟩ := List.mem_filterMap.mp hx
        obtain ⟨hrres, hrs⟩ := List.mem_filter.mp hr
        simp [hlookAll r hrres hrs x hfid]
      unfold buildArchive
      rw [if_neg (by simp [hne]), hfind]
    · rw [if_neg hpos] at hids
      exact absurd hids (by simp)

/-- Witness for C5 on the demo batch: the archive build over the ids the
batch passes succeeds. -/
theorem zip_invocation_c5_witness :
    buildArchive (registryOf demoRun.trace) ["ja", "jc"] = Except.ok ["ja", "jc"] :=
  ((zip_invocation_c5 demoItems demoRun rfl (by decide)).2 ["ja", "jc"] rfl).2

/-- Counterexample to C6 as stated: a one-item batch whose job (`jb`) is
created and terminates in `error` records an outcome carrying no job
identifier at all — `file_id` is absent from the failure record, although a
job existed for the item. -/
theorem outcome_missing_jobid_c6 :
    (handleBatchDownload false [("u2", envB)]).map BatchRun.trace =
      some [Ev.created 0 "jb", Ev.observedTerminal 0 "jb" Status.error] ∧
    (handleBatchDownload false [("u2", envB)]).map BatchRun.results =
      some [⟨false, "u2", none, none, none, none, none, some "Download failed"⟩] :=
  ⟨rfl, rfl⟩

/-- Claim C6 as amended: every entry yields exactly one outcome record in
input order; a record carries a job identifier exactly when it is a
success, and every failure record carries an error detail (but no job
identifier). -/
theorem outcome_shape_c6 (items : List (String × ItemEnv)) (run : BatchRun)
    (h : handleBatchDownload false items = some run) :
    run.results.map (fun r => r.url) = items.map Prod.fst ∧
    run.results.map (fun r => r.file_id.isSome) = run.results.map (fun r => r.success) ∧
    (∀ r ∈ run.results, r.success = false → r.error.isSome = true) := by
  obtain ⟨haux, -⟩ := handleBatch_elim items run h
  obtain ⟨hmap, -, -, -, hsucc, hfail⟩ := runBatchAux_spec items 0 _ _ _ haux
  refine ⟨hmap, ?_, fun r hr hs => (hfail r hr hs).2⟩
  apply List.map_congr_left
  intro r hr
  cases hs : r.success
  · rw [(hfail r hr hs).1]
    rfl
  · obtain ⟨i, fid, hfid, -⟩ := hsucc r hr hs
    rw [hfid]
    rfl

/-- Witness for the amended C6 on the demo batch. -/
theorem outcome_shape_c6_witness :
    demoRun.results.map (fun r => r.file_id.isSome) = demoRun.results.map (fun r => r.success) :=
  (outcome_shape_c6 demoItems demoRun rfl).2.1

/-- Counterexample to C7 as stated: a batch whose single item ends
`cancelled` produces a results array equal to that of a batch whose single
item ends `error` — the recorded outcomes cannot distinguish the two, and
the cancelled item is recorded as `success = false`. -/
theorem cancelled_indistinguishable_c7 :
    (handleBatchDownload false [("u2", envCan)]).map BatchRun.results =
      (handleBatchDownload false [("u2", envB)]).map BatchRun.results ∧
    (handleBatchDownload false [("u2", envCan)]).map BatchRun.results =
      some [⟨false, "u2", none, none, none, none, none, some "Download failed"⟩] :=
  ⟨rfl, rfl⟩

/-- Claim C7 as amended: an item whose wait loop observes a terminal
`cancelled` (or `error`) snapshot is recorded as a failure with the fixed
detail string `Download failed` — the same record either way, hence
indistinguishable — and contributes nothing to the aggregate size. -/
theorem cancelled_recorded_failure_c7 (url : String) (idx : Nat) (env : ItemEnv)
    (o : BatchOutcome) (sz : Nat) (evs : List Ev) (fid : String) (st : Status)
    (h : runItem url idx env = some (o, sz, evs))
    (hst : st = Status.error ∨ st = Status.cancelled)
    (hmem : Ev.observedTerminal idx fid st ∈ evs) :
    o = ⟨false, url, none, none, none, none, none, some "Download failed"⟩ ∧ sz = 0 := by
  rcases runItem_spec url idx env o sz evs h with
    ⟨fid', fn, ex, fs, ho, hsz, hevs⟩ | ⟨msg, ho, hsz, hevs⟩ | ⟨fid', ho, hsz, st', hst', hevs⟩
  · subst hevs
    simp only [List.mem_cons, List.mem_singleton, List.not_mem_nil, or_false] at hmem
    rcases hmem with heq | heq
    · exact Ev.noConfusion heq
    · have hstc : st = Status.completed := by
        injection heq
      rcases hst with rfl | rfl
      · exact Status.noConfusion hstc
      · exact Status.noConfusion hstc
  · rcases hevs with rfl | ⟨fid2, rfl⟩
    · simp at hmem
    · simp only [List.mem_singleton] at hmem
      exact Ev.noConfusion hmem
  · subst hevs
    exact ⟨ho, hsz⟩

/-- Witness for the amended C7: the cancelled demo item produces exactly
the generic failure record with zero size contribution. -/
theorem cancelled_recorded_failure_c7_witness :
    ((⟨false, "u", none, none, none, none, none, some "Download failed"⟩ : BatchOutcome) =
      ⟨false, "u", none, none, none, none, none, some "Download failed"⟩) ∧ (0 : Nat) = 0 :=
  cancelled_recorded_failure_c7 "u" 0 envCan
    ⟨false, "u", none, none, none, none, none, some "Download failed"⟩ 0
    [Ev.created 0 "jd", Ev.observedTerminal 0 "jd" Status.cancelled] "jd" Status.cancelled
    rfl (Or.inr rfl) (by decide)

/-- Claim C8: when the first deciding poll answer (terminal status or
request failure) is at index `k`, the client issues exactly `k + 1` poll
requests, at 500, 1000, ..., 500 * (k + 1) milliseconds — a fixed 500 ms
cadence with no request after the deciding one. -/
theorem poll_cadence_c8 (rs : List PollResp) (k : Nat) (hk : k < rs.length)
    (hfind : rs.findIdx stopsPolling = k) :
    serverPollTimes rs = List.range' 500 (k + 1) 500 := by
  have main : ∀ (l : List PollResp) (n : Nat) (t : Nat), n < l.length →
      l.findIdx stopsPolling = n → pollTimesFrom l t = List.range' t (n + 1) 500 := by
    intro l
    induction l with
    | nil =>
      intro n t hn hf
      simp at hn
    | cons r rest ih =>
      intro n t hn hfind
      cases hs : stopsPolling r
      · rw [List.findIdx_cons, hs] at hfind
        simp only [cond_false] at hfind
        cases n with
        | zero => exact absurd hfind (by omega)
        | succ n' =>
          have hfind' : rest.findIdx stopsPolling = n' := by omega
          have hn' : n' < rest.length := by
            simp only [List.length_cons] at hn
            omega
          simp only [pollTimesFrom, hs, if_false, Bool.false_eq_true]
          rw [ih n' (t + 500) hn' hfind']
          rfl
      · rw [List.findIdx_cons, hs] at hfind
        simp only [cond_true] at hfind
        subst hfind
        simp [pollTimesFrom, hs, List.range']
  exact main rs k 500 hk hfind

/-- Witness for C8: one `downloading` answer then a `completed` one gives
polls at 500 and 1000 ms and no more. -/
theorem poll_cadence_c8_witness :
    serverPollTimes [PollResp.ok pDown, PollResp.ok pDone1] = List.range' 500 2 500 :=
  poll_cadence_c8 [PollResp.ok pDown, PollResp.ok pDone1] 1 (by decide) (by decide)

/-- Claim C9: on a `downloading` snapshot the handler displays the rounded
percentage and formatted downloaded byte count exactly when
`total_bytes > 0`, and derives no percentage (it keeps waiting) when
`total_bytes = 0`. -/
theorem percentage_display_c9 (p : Progress) (h : p.status = Status.downloading) :
    (0 < p.total_bytes → serverPollHandler p =
       ServerPollAction.showProgress (jsRound p.percentage)
         (formatFileSize (some (p.downloaded_bytes : ℚ)))) ∧
    (p.total_bytes = 0 → serverPollHandler p = ServerPollAction.keepPolling) := by
  constructor
  · intro ht
    unfold serverPollHandler
    rw [if_pos ⟨h, ht⟩]
  · intro ht
    simp [serverPollHandler, h, ht]

/-- Witness for C9 on the mid-download snapshot. -/
theorem percentage_display_c9_witness :
    serverPollHandler pDown =
      ServerPollAction.showProgress (jsRound pDown.percentage)
        (formatFileSize (some (pDown.downloaded_bytes : ℚ))) :=
  (percentage_display_c9 pDown rfl).1 (by decide)

/-- Claim C10: a missing byte count and the number zero (both falsy) format
as `Unknown size`, and every positive byte count formats as the count over
1048576 rendered to two decimals followed by ` MB`. -/
theorem format_file_size_c10 :
    formatFileSize none = "Unknown size" ∧
    formatFileSize (some 0) = "Unknown size" ∧
    (∀ b : ℚ, 0 < b → formatFileSize (some b) = jsToFixed2 (b / (1024 * 1024)) ++ " MB") := by
  refine ⟨rfl, ?_, ?_⟩
  · simp [formatFileSize]
  · intro b hb
    simp only [formatFileSize]
    rw [if_neg (ne_of_gt hb)]

/-- Witness for C10: one mebibyte renders as `1.00 MB`, while zero bytes
render as `Unknown size` (shown in the theorem itself), not `0.00 MB`. -/
theorem format_file_size_c10_witness :
    (0 : ℚ) < 1048576 ∧ formatFileSize (some 1048576) = "1.00 MB" := by
  refine ⟨by norm_num, ?_⟩
  rw [format_file_size_c10.2.2 1048576 (by norm_num)]
  have h : ratFloor ((1048576 : ℚ) / (1024 * 1024) * 100 + 1 / 2) = 100 := by
    norm_num [ratFloor]
  simp only [jsToFixed2, h]
  decide

end YtDown
